import Mathlib

/-!
Shallow embedding of the interceptor chain-assembly and chain-execution
engine of `src/lib/core/Axios.js` (the `Axios.prototype.request` method),
together with the argument-normalisation and method-resolution steps that
precede chain assembly.

Modelling conventions:
* Handlers and the transport call are opaque functions over a value type
  `α`; a JS call either returns normally or throws, modelled by
  `CallResult`.
* A promise is observed at settlement only (single-threaded, deterministic
  scheduling), so a promise is its settled outcome `Settled α`; `then`
  chaining is `promiseThen`.
* Calling `undefined` as a function throws a `TypeError`; the distinguished
  value `te : α` passed to the executor stands for that thrown TypeError.
* The whole `request` call either raises synchronously past the entry
  point (`Outcome.raised`) or returns a promise (`Outcome.promised`).
-/

namespace AxiosSpec

/-- Result of calling a JS function: a normal return or a thrown value. -/
inductive CallResult (α : Type) where
  | ret (v : α)
  | thrown (e : α)
  deriving DecidableEq, Repr

/-- A settled suspension (promise): fulfilled with a value or rejected with an error. -/
inductive Settled (α : Type) where
  | fulfilled (v : α)
  | rejected (e : α)
  deriving DecidableEq, Repr

/-- A handler function (interceptor `fulfilled`/`rejected` member): maps a value to a
result or throws. -/
abbrev Handler (α : Type) := α → CallResult α

/-- One slot of the flat chain array: a possibly-`undefined` handler. -/
abbrev OptHandler (α : Type) := Option (Handler α)

/-- A `(successHandler, failureHandler)` pair as unshifted/pushed onto the chain
arrays (lines 94 and 100 of `Axios.js`). -/
abbrev HandlerPair (α : Type) := OptHandler α × OptHandler α

/-- Call a possibly-`undefined` handler: calling `undefined` throws a TypeError,
represented by the distinguished value `te`. -/
def callJS {α : Type} (te : α) (h : OptHandler α) (x : α) : CallResult α :=
  match h with
  | none => .thrown te
  | some f => f x

/-- Embedding of `promise.then(onFulfilled, onRejected)` observed at settlement:
an absent handler passes the settlement through unchanged; a present handler
runs, its normal return fulfilling and its throw rejecting the derived promise. -/
def promiseThen {α : Type} (p : Settled α) (onF onR : OptHandler α) : Settled α :=
  match p with
  | .fulfilled v =>
    match onF with
    | none => .fulfilled v
    | some f =>
      match f v with
      | .ret w => .fulfilled w
      | .thrown e => .rejected e
  | .rejected e =>
    match onR with
    | none => .rejected e
    | some r =>
      match r e with
      | .ret w => .fulfilled w
      | .thrown e2 => .rejected e2

/-- Embedding of the `while (chain.length) promise = promise.then(chain.shift(), chain.shift())`
loops (lines 112-114 and 138-140 of `Axios.js`): fold `promiseThen` over the chain,
two slots (one pair) at a time. -/
def thenFold {α : Type} (chain : List (HandlerPair α)) (p : Settled α) : Settled α :=
  chain.foldl (fun q pr => promiseThen q pr.1 pr.2) p

/-- One registered interceptor entry, as read back from the `InterceptorManager`
registries by `Axios.prototype.request`: `fulfilled` and `rejected` handlers (either
may be `undefined`), the `synchronous` option, and the optional `runWhen` activation
predicate. -/
structure Interceptor (α : Type) where
  fulfilled : OptHandler α
  rejected : OptHandler α
  synchronous : Bool
  runWhen : Option (α → Bool)

/-- Activation test from line 82 of `Axios.js`: an entry is skipped exactly when
`runWhen` is a function and `runWhen(config)` is `false`; otherwise it participates. -/
def activated {α : Type} (cfg : α) (i : Interceptor α) : Bool :=
  match i.runWhen with
  | some p => p cfg
  | none => true

/-- One step of the `forEach unshiftRequestInterceptors` loop (lines 78-95 of
`Axios.js`): a non-activated entry contributes nothing; an activated entry has its
`(fulfilled, rejected)` pair unshifted onto the chain and its `synchronous` field
ANDed into the flag. -/
def preAccum {α : Type} (cfg : α) (acc : List (HandlerPair α) × Bool)
    (i : Interceptor α) : List (HandlerPair α) × Bool :=
  if activated cfg i then ((i.fulfilled, i.rejected) :: acc.1, acc.2 && i.synchronous)
  else acc

/-- Embedding of lines 72-95 of `Axios.js`: traverse the request-interceptor registry
in registration order, building `requestInterceptorChain` (by unshift, hence reversed)
and `synchronousRequestInterceptors` (starting `true`). -/
def assemblePre {α : Type} (cfg : α) (reqIcs : List (Interceptor α)) :
    List (HandlerPair α) × Bool :=
  reqIcs.foldl (preAccum cfg) ([], true)

/-- Embedding of lines 98-101 of `Axios.js`: `responseInterceptorChain` collects each
entry's `(fulfilled, rejected)` pair by push, hence in registration order; no
`runWhen` filtering and no effect on the synchronous flag. -/
def assemblePost {α : Type} (respIcs : List (Interceptor α)) : List (HandlerPair α) :=
  respIcs.map fun i => (i.fulfilled, i.rejected)

/-- Result of invoking the transport collaborator: a synchronous throw of an error
value, or a returned promise (observed at settlement). -/
inductive DispatchResult (α : Type) where
  | thrown (e : α)
  | ret (p : Settled α)
  deriving DecidableEq, Repr

/-- The transport collaborator `dispatchRequest`: invoked with a config, it either
throws synchronously or returns a promise (observed at settlement). -/
abbrev Dispatch (α : Type) := α → DispatchResult α

/-- The transport call in the position of a `then` success handler (slot
`[dispatchRequest, undefined]` of the suspended chain, line 106 of `Axios.js`):
a synchronous throw or a returned rejected promise both reject the derived promise;
a returned fulfilled promise fulfills it. -/
def dispatchHandler {α : Type} (d : Dispatch α) : Handler α := fun cfg =>
  match d cfg with
  | .thrown e => .thrown e
  | .ret (.fulfilled v) => .ret v
  | .ret (.rejected e) => .thrown e

/-- Embedding of the suspended strategy (lines 105-116 of `Axios.js`). The executed
chain is `requestInterceptorChain ++ [dispatchRequest, undefined]`; line 109 reads
`chain.concat(responseInterceptorChain)` whose result is discarded (`Array.concat`
does not mutate), so the response chain is computed but never folded in — mirrored
here by the discarded `let` binding. -/
def suspendedRun {α : Type} (d : Dispatch α)
    (preChain postChain : List (HandlerPair α)) (cfg : α) : Settled α :=
  let chain := preChain ++ [(some (dispatchHandler d), none)]
  let _ := chain ++ postChain
  thenFold chain (.fulfilled cfg)

/-- Modelled from the spec: section 4.3 describes the suspended strategy as folding
over the single linear sequence
`preSequence ++ [transportCall, undefined-failure-handler] ++ postSequence`,
starting from the resolved configuration as an already-succeeded suspension. This
definition follows the spec's words, for comparison with `suspendedRun`, which
embeds the code. -/
def suspendedRunSpec {α : Type} (d : Dispatch α)
    (preChain postChain : List (HandlerPair α)) (cfg : α) : Settled α :=
  thenFold (preChain ++ [(some (dispatchHandler d), none)] ++ postChain) (.fulfilled cfg)

/-- Embedding of the direct pre-send loop (lines 120-130 of `Axios.js`): shift one
pair at a time; `newConfig = onFulfilled(newConfig)` is wrapped in `try`; on a throw,
`onRejected(error)` is called *unguarded* (so an `undefined` or throwing `onRejected`
raises out of the loop — a `.thrown` result here) and its return value is discarded,
then the loop breaks with `newConfig` still holding the value from before the failing
handler. -/
def directPreLoop {α : Type} (te : α) :
    List (HandlerPair α) → α → CallResult α
  | [], cfg => .ret cfg
  | (onF, onR) :: rest, cfg =>
    match callJS te onF cfg with
    | .ret newCfg => directPreLoop te rest newCfg
    | .thrown err =>
      match callJS te onR err with
      | .ret _ => .ret cfg
      | .thrown e2 => .thrown e2

/-- Overall outcome of `Axios.prototype.request`: a synchronous raise escaping the
entry point, or a returned promise (observed at settlement). -/
inductive Outcome (α : Type) where
  | raised (e : α)
  | promised (p : Settled α)
  deriving DecidableEq, Repr

/-- Embedding of the direct strategy (lines 120-142 of `Axios.js`): run the pre-send
loop; a raise there escapes the entry point. Then `dispatchRequest(newConfig)` inside
`try`: a synchronous throw becomes `return Promise.reject(error)` — returning at once,
so the response chain is *not* folded in that case; otherwise the response chain is
folded onto the dispatch promise. -/
def directRun {α : Type} (te : α) (d : Dispatch α)
    (preChain postChain : List (HandlerPair α)) (cfg : α) : Outcome α :=
  match directPreLoop te preChain cfg with
  | .thrown e => .raised e
  | .ret newCfg =>
    match d newCfg with
    | .thrown e => .promised (.rejected e)
    | .ret p => .promised (thenFold postChain p)

/-- Embedding of the chain-assembly and chain-execution part of
`Axios.prototype.request` (lines 71-142 of `Axios.js`), applied to the resolved
configuration: assemble both chains and the synchronous flag, then run the suspended
strategy when the flag is false and the direct strategy otherwise. -/
def request {α : Type} (te : α) (d : Dispatch α)
    (reqIcs respIcs : List (Interceptor α)) (cfg : α) : Outcome α :=
  let pre := assemblePre cfg reqIcs
  let postChain := assemblePost respIcs
  if pre.2 = false then .promised (suspendedRun d pre.1 postChain cfg)
  else directRun te d pre.1 postChain cfg

/-- Resolved request configuration, restricted to the fields the modelled code
touches. -/
structure Config where
  url : Option String := none
  method : Option String := none
  data : Option String := none
  deriving DecidableEq, Repr

/-- First argument of `Axios.prototype.request`: a URL string or a config object
(or absent/falsy, the `none` case). -/
inductive RequestArg where
  | str (s : String)
  | conf (c : Config)
  deriving DecidableEq, Repr

/-- Embedding of lines 30-35 of `Axios.js`: a string first argument becomes the URL
of the (defaulted) second-argument config; a non-string first argument is used as
the config, defaulting to `{}` when absent. -/
def resolveArgs (first : Option RequestArg) (second : Option Config) : Config :=
  match first with
  | some (.str url) => { second.getD {} with url := some url }
  | some (.conf c) => c
  | none => {}

/-- JS truthiness of an optional string field: `undefined` and the empty string are
falsy. -/
def jsTruthy (s : Option String) : Bool :=
  match s with
  | none => false
  | some st => !st.isEmpty

/-- Embedding of JS `String.prototype.toLowerCase` on the modelled strings, using
the basic-latin lowering of each character. -/
def jsToLowerCase (s : String) : String := String.mk (s.data.map Char.toLower)

/-- Embedding of lines 39-46 of `Axios.js`: lowercase `config.method` when truthy,
else fall back to the lowercased instance-default method when truthy, else `"get"`. -/
def resolveMethod (defaults cfg : Config) : Config :=
  if jsTruthy cfg.method then { cfg with method := cfg.method.map jsToLowerCase }
  else if jsTruthy defaults.method then
    { cfg with method := defaults.method.map jsToLowerCase }
  else { cfg with method := some "get" }

/-! Helper lemmas. -/

/-- Folding the pre-send accumulation step over any accumulator: the chain is the
reversed pair-list of the activated entries prepended to the accumulator, and the
flag is the accumulator's flag ANDed with the conjunction of the activated entries'
`synchronous` fields. -/
theorem foldl_preAccum_eq {α : Type} (cfg : α) (l : List (Interceptor α))
    (acc : List (HandlerPair α) × Bool) :
    l.foldl (preAccum cfg) acc =
      (((l.filter (activated cfg)).reverse.map fun i => (i.fulfilled, i.rejected)) ++ acc.1,
       acc.2 && (l.filter (activated cfg)).all fun i => i.synchronous) := by
  induction l generalizing acc with
  | nil => simp
  | cons i t ih =>
    cases h : activated cfg i with
    | false => simp [List.foldl_cons, preAccum, h, ih, List.filter_cons]
    | true => simp [List.foldl_cons, preAccum, h, ih, List.filter_cons, Bool.and_assoc]

/-- Characterisation of the assembled pre-send data: the chain holds the activated
entries' handler pairs in reverse registration order, and the flag is the conjunction
of the activated entries' `synchronous` fields. -/
theorem assemblePre_eq {α : Type} (cfg : α) (l : List (Interceptor α)) :
    assemblePre cfg l =
      ((l.filter (activated cfg)).reverse.map fun i => (i.fulfilled, i.rejected),
       (l.filter (activated cfg)).all fun i => i.synchronous) := by
  simp [assemblePre, foldl_preAccum_eq]

/-- Converting a valid code point to a character and back is the identity. -/
theorem char_toNat_ofNat_valid {n : Nat} (h : n.isValidChar) :
    (Char.ofNat n).toNat = n := by
  rw [Char.ofNat, dif_pos h]
  rfl

/-- Basic-latin lowering of a character is idempotent. -/
theorem toLower_toLower_eq (c : Char) : c.toLower.toLower = c.toLower := by
  simp only [Char.toLower]
  by_cases h : c.toNat ≥ 65 ∧ c.toNat ≤ 90
  · have hv : Nat.isValidChar (c.toNat + 32) := Or.inl (by omega)
    rw [if_pos h, char_toNat_ofNat_valid hv, if_neg (by omega)]
  · rw [if_neg h, if_neg h]

/-- The modelled `toLowerCase` is idempotent. -/
theorem jsToLowerCase_idem (s : String) :
    jsToLowerCase (jsToLowerCase s) = jsToLowerCase s := by
  have hmap : ∀ l : List Char, (l.map Char.toLower).map Char.toLower = l.map Char.toLower := by
    intro l
    induction l with
    | nil => rfl
    | cons a t ih => simp [ih, toLower_toLower_eq]
  show String.mk ((s.data.map Char.toLower).map Char.toLower)
      = String.mk (s.data.map Char.toLower)
  rw [hmap]

/-- With the synchronous flag true, the request takes the direct strategy. -/
theorem request_direct_eq {α : Type} (te : α) (d : Dispatch α)
    (reqIcs respIcs : List (Interceptor α)) (cfg : α)
    (hsync : (assemblePre cfg reqIcs).2 = true) :
    request te d reqIcs respIcs cfg
      = directRun te d (assemblePre cfg reqIcs).1 (assemblePost respIcs) cfg := by
  simp only [request]
  rw [if_neg (by simp [hsync])]

/-- Once the pre-send loop finishes with configuration `c`, the direct strategy
dispatches `c` and folds the response chain over the result, a synchronous dispatch
throw becoming a rejected suspension. -/
theorem directRun_of_loop {α : Type} (te : α) (d : Dispatch α)
    (preChain postChain : List (HandlerPair α)) (cfg c : α)
    (hloop : directPreLoop te preChain cfg = .ret c) :
    directRun te d preChain postChain cfg
      = match d c with
        | .thrown e => .promised (.rejected e)
        | .ret p => .promised (thenFold postChain p) := by
  unfold directRun
  rw [hloop]

/-! Claim theorems. -/

/-- C1: the claim says the suspended strategy folds
`preSequence ++ [transportCall, undefined-failure-handler] ++ postSequence`, so every
post-receive pair is chained after the transport call. In the code, line 109 reads
`chain.concat(responseInterceptorChain)` and discards its result, so the post-receive
pairs are never chained. At this input (one non-synchronous pre-send interceptor
adding 1, dispatch adding 100, one post-receive interceptor adding 1000, config 5)
the code settles at 106 — the post-receive handler never ran — while the
spec-described fold settles at 1106. -/
theorem suspended_drops_response_chain :
    request 0 (fun c => .ret (.fulfilled (c + 100)))
      [⟨some (fun c => .ret (c + 1)), none, false, none⟩]
      [⟨some (fun r => .ret (r + 1000)), none, false, none⟩] 5
      = .promised (.fulfilled 106)
    ∧ suspendedRunSpec (fun c => .ret (.fulfilled (c + 100)))
        (assemblePre 5
          [(⟨some (fun c => .ret (c + 1)), none, false, none⟩ : Interceptor Nat)]).1
        (assemblePost
          [(⟨some (fun r => .ret (r + 1000)), none, false, none⟩ : Interceptor Nat)]) 5
      = .fulfilled 1106 := ⟨by decide, by decide⟩

/-- C6: the claim says that when a direct-strategy pre-send `onFulfilled` raises and
no `onRejected` was supplied, dispatch still occurs with the prior configuration. In
the code, line 127 calls `onRejected(error)` unguarded, so an absent handler means
calling `undefined`, which raises a TypeError synchronously out of the entry point;
dispatch (which would have produced 105 here) never happens. -/
theorem missing_rejected_raises_typeerror :
    request 0 (fun c => (.ret (.fulfilled (c + 100)) : DispatchResult Nat))
      [⟨some (fun _ => .thrown 7), none, true, none⟩] [] 5
      = .raised 0
    ∧ request 0 (fun c => (.ret (.fulfilled (c + 100)) : DispatchResult Nat))
      [⟨some (fun _ => .thrown 7), none, true, none⟩] [] 5
      ≠ .promised (.fulfilled 105) := ⟨by decide, by decide⟩

/-- C5 counterexample: the claim says the transport call is dispatched with the
configuration value that resulted from the failure handler. Here the failure handler
returns 99, yet dispatch (the identity on the settled value) receives 5, the
configuration from before the failing handler: `onRejected`'s return value is
discarded at line 127 of the code. -/
theorem rejected_result_discarded :
    request 0 (fun c => (.ret (.fulfilled c) : DispatchResult Nat))
      [⟨some (fun _ => .thrown 7), some (fun _ => .ret 99), true, none⟩] [] 5
      = .promised (.fulfilled 5)
    ∧ request 0 (fun c => (.ret (.fulfilled c) : DispatchResult Nat))
      [⟨some (fun _ => .thrown 7), some (fun _ => .ret 99), true, none⟩] [] 5
      ≠ .promised (.fulfilled 99) := ⟨by decide, by decide⟩

/-- C2 counterexample: the claim says the caller always receives exactly one settled
outcome through the returned suspension and no failure is raised synchronously past
the entry point. Here a direct-strategy pre-send `onFulfilled` throws 7 and its
`onRejected` itself throws 8; the 8 propagates synchronously out of the entry point
(`Outcome.raised`), and no suspension settling to the failure is returned. -/
theorem request_raises_when_rejected_throws :
    request 0 (fun c => .ret (.fulfilled (c + 100)))
      [⟨some (fun _ => .thrown 7), some (fun _ => .thrown 8), true, none⟩] [] 5
      = .raised 8
    ∧ request 0 (fun c => .ret (.fulfilled (c + 100)))
      [⟨some (fun _ => .thrown 7), some (fun _ => .thrown 8), true, none⟩] [] 5
      ≠ .promised (.rejected 8) := ⟨by decide, by decide⟩

/-- C2 (amended): whenever the computed strategy is suspended, or the direct
pre-send loop completes without an unhandled raise, the entry point returns exactly
one suspension carrying the settled outcome; the only synchronous escape is the
direct strategy's pre-send failure path. -/
theorem request_settles {α : Type} (te : α) (d : Dispatch α)
    (reqIcs respIcs : List (Interceptor α)) (cfg : α)
    (h : (assemblePre cfg reqIcs).2 = false ∨
      ∃ c, directPreLoop te (assemblePre cfg reqIcs).1 cfg = .ret c) :
    ∃ p, request te d reqIcs respIcs cfg = .promised p := by
  by_cases hb : (assemblePre cfg reqIcs).2 = false
  · exact ⟨suspendedRun d (assemblePre cfg reqIcs).1 (assemblePost respIcs) cfg,
      by simp [request, hb]⟩
  · rcases h with h | ⟨c, hc⟩
    · exact absurd h hb
    · cases hd : d c with
      | thrown e =>
        exact ⟨.rejected e, by simp [request, hb, directRun, hc, hd]⟩
      | ret p =>
        exact ⟨thenFold (assemblePost respIcs) p,
          by simp [request, hb, directRun, hc, hd]⟩

/-- C2 witness: with no interceptors at all, the pre-send loop trivially completes
and the entry point returns a suspension. -/
theorem request_settles_witness :
    ∃ p, request 0 (fun c => (.ret (.fulfilled (c + 100)) : DispatchResult Nat)) [] [] 5
      = .promised p :=
  request_settles 0 (fun c => (.ret (.fulfilled (c + 100)) : DispatchResult Nat)) [] [] 5
    (Or.inr ⟨5, rfl⟩)

/-- C3: with pre-send interceptors registered in order A, B, C (no activation
predicates, all declared synchronous) and post-receive interceptors registered in
order X, Y, the direct strategy runs the pre-send handlers in order C, B, A, then
dispatches, then runs X before Y on the dispatch result: the settled value is the
composite `y (x (d (a (b (c cfg)))))`. -/
theorem direct_order {α : Type} (a b c x y d : α → α) (te cfg : α) :
    request te (fun v => .ret (.fulfilled (d v)))
      [⟨some (fun v => .ret (a v)), none, true, none⟩,
       ⟨some (fun v => .ret (b v)), none, true, none⟩,
       ⟨some (fun v => .ret (c v)), none, true, none⟩]
      [⟨some (fun v => .ret (x v)), none, false, none⟩,
       ⟨some (fun v => .ret (y v)), none, false, none⟩] cfg
      = .promised (.fulfilled (y (x (d (a (b (c cfg))))))) := rfl

/-- C9: a string first argument becomes the URL of the configuration taken from the
second argument (defaulting to the empty configuration), and a non-string first
argument is itself the configuration, defaulting to the empty configuration when
absent. -/
theorem entry_args_normalisation (url : String) (c c' : Config) (o : Option Config) :
    resolveArgs (some (.str url)) (some c) = { c with url := some url }
    ∧ resolveArgs (some (.str url)) none = { url := some url }
    ∧ resolveArgs (some (.conf c')) o = c'
    ∧ resolveArgs none o = {} := ⟨rfl, rfl, rfl, rfl⟩

/-- C4: the computed synchronous flag is true exactly when every activated pre-send
interceptor declares `synchronous = true`; with zero registered pre-send interceptors
the flag is true. The flag is computed by `assemblePre` from the request registry and
the configuration alone, so post-receive interceptors cannot influence it. -/
theorem sync_flag_iff {α : Type} (cfg : α) (reqIcs : List (Interceptor α)) :
    ((assemblePre cfg reqIcs).2 = true ↔
      ∀ i ∈ reqIcs, activated cfg i = true → i.synchronous = true)
    ∧ (assemblePre cfg ([] : List (Interceptor α))).2 = true := by
  refine ⟨?_, rfl⟩
  rw [assemblePre_eq]
  simp only [List.all_eq_true, List.mem_filter]
  constructor
  · intro h i hi ha
    exact h i ⟨hi, ha⟩
  · intro h i hi
    exact h i hi.1 hi.2

/-- C4 witness: a concrete instantiation of the flag characterisation, with one
synchronous and one asynchronous interceptor. -/
theorem sync_flag_iff_witness :
    (((assemblePre 5 [(⟨none, none, true, none⟩ : Interceptor Nat),
        ⟨none, none, false, none⟩]).2 = true ↔
      ∀ i ∈ [(⟨none, none, true, none⟩ : Interceptor Nat), ⟨none, none, false, none⟩],
        activated 5 i = true → i.synchronous = true)
    ∧ (assemblePre 5 ([] : List (Interceptor Nat))).2 = true) :=
  sync_flag_iff 5 [⟨none, none, true, none⟩, ⟨none, none, false, none⟩]

/-- C5 (amended): in the direct strategy, when the first-to-run pre-send
`onFulfilled` raises and its `onRejected` returns normally, no further pre-send
handler runs and the transport call is dispatched with the configuration as it stood
before the failing handler — the failure handler's return value is discarded — so
the whole request behaves exactly as if no pre-send interceptor were registered. -/
theorem pre_failure_recovery_discards {α : Type} (te : α) (d : Dispatch α)
    (restIcs respIcs : List (Interceptor α)) (f r : Handler α) (cfg e v : α)
    (hsync : (assemblePre cfg (restIcs ++ [⟨some f, some r, true, none⟩])).2 = true)
    (hf : f cfg = .thrown e) (hr : r e = .ret v) :
    request te d (restIcs ++ [⟨some f, some r, true, none⟩]) respIcs cfg
      = request te d [] respIcs cfg := by
  have hchain :
      (assemblePre cfg (restIcs ++ [(⟨some f, some r, true, none⟩ : Interceptor α)])).1
        = (some f, some r) ::
          ((restIcs.filter (activated cfg)).reverse.map fun i => (i.fulfilled, i.rejected)) := by
    rw [assemblePre_eq]
    simp [List.filter_append, activated]
  have hloop :
      directPreLoop te
        (assemblePre cfg (restIcs ++ [(⟨some f, some r, true, none⟩ : Interceptor α)])).1 cfg
        = .ret cfg := by
    rw [hchain]
    simp [directPreLoop, callJS, hf, hr]
  rw [request_direct_eq te d _ respIcs cfg hsync,
    directRun_of_loop te d _ (assemblePost respIcs) cfg cfg hloop,
    request_direct_eq te d [] respIcs cfg rfl,
    directRun_of_loop te d (assemblePre cfg ([] : List (Interceptor α))).1
      (assemblePost respIcs) cfg cfg rfl]

/-- C5 witness: one interceptor whose fulfilled handler throws 7 and whose rejected
handler returns 99; the request behaves as with no pre-send interceptors. -/
theorem pre_failure_recovery_discards_witness :
    request 0 (fun c => (.ret (.fulfilled c) : DispatchResult Nat))
      ([] ++ [⟨some (fun _ => .thrown 7), some (fun _ => .ret 99), true, none⟩]) [] 5
      = request 0 (fun c => (.ret (.fulfilled c) : DispatchResult Nat)) [] [] 5 :=
  pre_failure_recovery_discards 0 (fun c => (.ret (.fulfilled c) : DispatchResult Nat))
    [] [] (fun _ => .thrown 7) (fun _ => .ret 99) 5 7 99 (by decide) rfl rfl

/-- C7: in the direct strategy, when invoking the transport call raises
synchronously, the raise is converted into an already-rejected suspension returned
to the caller rather than propagating synchronously. -/
theorem dispatch_throw_to_rejection {α : Type} (te : α) (d : Dispatch α)
    (reqIcs respIcs : List (Interceptor α)) (cfg c e : α)
    (hsync : (assemblePre cfg reqIcs).2 = true)
    (hloop : directPreLoop te (assemblePre cfg reqIcs).1 cfg = .ret c)
    (hd : d c = .thrown e) :
    request te d reqIcs respIcs cfg = .promised (.rejected e) := by
  rw [request_direct_eq te d reqIcs respIcs cfg hsync,
    directRun_of_loop te d _ (assemblePost respIcs) cfg c hloop, hd]

/-- C7 witness: a transport call that throws 42 yields a returned suspension
rejected with 42. -/
theorem dispatch_throw_to_rejection_witness :
    request 0 (fun _ => (.thrown 42 : DispatchResult Nat)) [] [] 5
      = .promised (.rejected 42) :=
  dispatch_throw_to_rejection 0 (fun _ => (.thrown 42 : DispatchResult Nat)) [] [] 5 5 42
    rfl rfl rfl

/-- C8: a pre-send interceptor whose activation predicate evaluates false on the
current configuration contributes neither a handler pair to the chain nor a conjunct
to the synchronous flag — assembly is as if the entry were absent — while on a later
request whose configuration makes the predicate true its pair is in the chain and its
`synchronous` field is ANDed into the flag. -/
theorem runWhen_excludes {α : Type} (i : Interceptor α) (p : α → Bool)
    (l₁ l₂ : List (Interceptor α)) (cfg cfg' : α)
    (hw : i.runWhen = some p) (hf : p cfg = false) (ht : p cfg' = true) :
    assemblePre cfg (l₁ ++ i :: l₂) = assemblePre cfg (l₁ ++ l₂)
    ∧ (i.fulfilled, i.rejected) ∈ (assemblePre cfg' (l₁ ++ i :: l₂)).1
    ∧ (assemblePre cfg' (l₁ ++ i :: l₂)).2
        = ((assemblePre cfg' (l₁ ++ l₂)).2 && i.synchronous) := by
  have hact : activated cfg i = false := by simp [activated, hw, hf]
  have hact' : activated cfg' i = true := by simp [activated, hw, ht]
  refine ⟨?_, ?_, ?_⟩
  · rw [assemblePre_eq, assemblePre_eq]
    simp [List.filter_append, List.filter_cons, hact]
  · rw [assemblePre_eq]
    refine List.mem_map_of_mem _ ?_
    simp [List.filter_append, List.filter_cons, hact']
  · rw [assemblePre_eq, assemblePre_eq]
    simp only [List.filter_append, List.filter_cons, hact', if_true]
    simp [List.all_append]
    cases h₁ : (l₁.filter (activated cfg')).all (fun j => j.synchronous) <;>
      cases h₂ : (l₂.filter (activated cfg')).all (fun j => j.synchronous) <;>
      cases h₃ : i.synchronous <;> simp [h₁, h₂, h₃]

/-- C8 witness: an interceptor whose predicate holds only at configuration 1 is
excluded at configuration 0 and included at configuration 1. -/
theorem runWhen_excludes_witness :
    assemblePre 0 ([] ++ (⟨none, none, true, some fun n => n == 1⟩ : Interceptor Nat) :: [])
      = assemblePre 0 ([] ++ [])
    ∧ ((none : OptHandler Nat), (none : OptHandler Nat)) ∈
        (assemblePre 1 ([] ++ (⟨none, none, true, some fun n => n == 1⟩ : Interceptor Nat) :: [])).1
    ∧ (assemblePre 1 ([] ++ (⟨none, none, true, some fun n => n == 1⟩ : Interceptor Nat) :: [])).2
        = ((assemblePre 1 ([] ++ [])).2 &&
            (⟨none, none, true, some fun n => n == 1⟩ : Interceptor Nat).synchronous) :=
  runWhen_excludes (⟨none, none, true, some fun n => n == 1⟩ : Interceptor Nat)
    (fun n => n == 1) [] [] 0 1 rfl rfl rfl

/-- C10: the resolved method is always a defined, lowercase string: the lowercased
request method when truthy, else the lowercased instance-default method when truthy,
else `"get"`. -/
theorem method_normalisation (defaults cfg : Config) :
    (∃ s, (resolveMethod defaults cfg).method = some s ∧ jsToLowerCase s = s)
    ∧ (∀ m, cfg.method = some m → jsTruthy cfg.method = true →
        (resolveMethod defaults cfg).method = some (jsToLowerCase m))
    ∧ (∀ m, jsTruthy cfg.method = false → defaults.method = some m →
        jsTruthy defaults.method = true →
        (resolveMethod defaults cfg).method = some (jsToLowerCase m))
    ∧ (jsTruthy cfg.method = false → jsTruthy defaults.method = false →
        (resolveMethod defaults cfg).method = some "get") := by
  refine ⟨?_, ?_, ?_, ?_⟩
  · by_cases h1 : jsTruthy cfg.method = true
    · cases hm : cfg.method with
      | none => rw [hm] at h1; simp [jsTruthy] at h1
      | some m =>
        rw [hm] at h1
        exact ⟨jsToLowerCase m, by simp [resolveMethod, hm, h1], jsToLowerCase_idem m⟩
    · by_cases h2 : jsTruthy defaults.method = true
      · cases hm : defaults.method with
        | none => rw [hm] at h2; simp [jsTruthy] at h2
        | some m =>
          rw [hm] at h2
          exact ⟨jsToLowerCase m, by simp [resolveMethod, h1, hm, h2], jsToLowerCase_idem m⟩
      · exact ⟨"get", by simp [resolveMethod, h1, h2], by decide⟩
  · intro m hm ht
    rw [hm] at ht
    simp [resolveMethod, hm, ht]
  · intro m h1 hm h2
    rw [hm] at h2
    simp [resolveMethod, h1, hm, h2]
  · intro h1 h2
    simp [resolveMethod, h1, h2]

/-- C10 witness: an upper-case request method is lowercased; the result is a fixed
point of the lowering. -/
theorem method_normalisation_witness :
    (resolveMethod { method := some "POST" } { method := some "DeLeTe" }).method
      = some (jsToLowerCase "DeLeTe") :=
  (method_normalisation { method := some "POST" } { method := some "DeLeTe" }).2.1
    "DeLeTe" rfl (by decide)

end AxiosSpec
